import Mathlib

/-
Shallow embedding of the web-research-agent controller
(src/App.tsx, the geminiService wrapper, src/types.ts).

The controller state (phase, log sequence, report, query set, retry
counter) is carried explicitly.  Calls against the remote generation
service are modelled by oracles: each call site receives either a raw
response value or a failure message, plus a flag saying whether the
cancellation signal was observed at the abort check directly after the
awaited call.  Throwing in the TypeScript source is modelled by the
pipeline returning the state at the throw point together with the
error message; the catch handler (handleError) is applied on top.
-/

namespace WebResearchAgent

/-- AgentState enum from src/types.ts. -/
inductive AgentState
  | IDLE
  | BRAINSTORMING
  | REFLECTING
  | SEARCHING
  | COMPILING
  | REVIEWING
  | REWRITING
  | COMPLETED
  | ERROR
deriving DecidableEq, Repr

/-- SearchQuery from src/types.ts. -/
structure SearchQuery where
  query : String
  rationale : String
deriving DecidableEq, Repr

/-- One entry of ResearchReport.sources (and of the grounding-chunk
web payload): a title/uri pair.  A missing (undefined) or empty field
is modelled as the empty string, which is exactly the set of falsy
string values the TypeScript truthiness checks reject. -/
structure Source where
  title : String
  uri : String
deriving DecidableEq, Repr

/-- ResearchReport from src/types.ts. -/
structure ResearchReport where
  topic : String
  markdown : String
  sources : List Source
  score : Option Int := none
  feedback : Option String := none
  version : Nat
deriving DecidableEq, Repr

/-- ReviewResult from src/types.ts.  The three fields are parsed
verbatim from the service JSON; nothing in the code re-derives
approved from score. -/
structure ReviewResult where
  score : Int
  feedback : String
  approved : Bool
deriving DecidableEq, Repr

/-- The details payload of a log entry (string or structured object in
the TypeScript source). -/
inductive LogPayload
  | text : String → LogPayload
  | queries : List SearchQuery → LogPayload
  | count : Nat → LogPayload
  | feedbackNote : String → LogPayload
deriving DecidableEq, Repr

/-- LogEntry from src/types.ts.  The random id and wall-clock
timestamp are environment-provided and carry no control-flow
information, so they are omitted from the embedding. -/
structure LogEntry where
  step : AgentState
  message : String
  details : Option LogPayload := none
deriving DecidableEq, Repr

/-- The controller state owned by App.tsx: current phase, append-only
log list, current report, current query set and the retry counter. -/
structure ControllerState where
  state : AgentState
  logs : List LogEntry
  report : Option ResearchReport
  queries : List SearchQuery
  retryCount : Nat
deriving DecidableEq, Repr

/-- MAX_RETRIES constant from src/App.tsx. -/
def MAX_RETRIES : Nat := 2

/-- addLog from src/App.tsx: append one entry to the log list. -/
def addLog (s : ControllerState) (step : AgentState) (message : String)
    (details : Option LogPayload) : ControllerState :=
  { s with logs := s.logs ++ [{ step := step, message := message, details := details }] }

/- ----------------------------------------------------------------
Service layer (geminiService): source extraction and deduplication.
---------------------------------------------------------------- -/

/-- Raw generation-service response for the grounded calls: the text
body (empty string models a missing/empty text, which is falsy) and
the grounding chunks, each optionally carrying a web payload. -/
structure GenResponse where
  text : String
  chunks : List (Option Source)
deriving DecidableEq, Repr

/-- Result of searchAndCompile in geminiService. -/
structure CompileResult where
  markdown : String
  sources : List Source
deriving DecidableEq, Repr

/-- groundingChunks.map(chunk => chunk.web).filter(web => web && web.uri && web.title)
from searchAndCompile / askFollowUp: keep only chunks whose web payload
is present with truthy (non-empty) uri and title. -/
def extractSources (chunks : List (Option Source)) : List Source :=
  (chunks.filterMap id).filter (fun w => w.uri != "" && w.title != "")

/-- One step of building the JavaScript Map in
`new Map(sources.map(s => [s.uri, s]))`: if the uri is already a key the
value is replaced in place (key order kept), otherwise the pair is
appended. -/
def insertByUri (acc : List Source) (s : Source) : List Source :=
  if acc.any (fun t => t.uri == s.uri) then
    acc.map (fun t => if t.uri == s.uri then s else t)
  else
    acc ++ [s]

/-- `Array.from(new Map(sources.map(s => [s.uri, s])).values())`:
deduplicate by uri with JavaScript Map semantics (first-seen key order,
last-seen value for a repeated key). -/
def dedupByUri (l : List Source) : List Source :=
  l.foldl insertByUri []

/-- searchAndCompile from geminiService, applied to a raw response:
throws "No response from Gemini" when the text is falsy, otherwise
returns the markdown and the deduplicated sources. -/
def searchAndCompileService (r : GenResponse) : Except String CompileResult :=
  if r.text = "" then Except.error "No response from Gemini"
  else Except.ok { markdown := r.text, sources := dedupByUri (extractSources r.chunks) }

/-- askFollowUp from geminiService, applied to a raw response (the
cancellation checks around the call are modelled at the call site):
same text check and source pipeline as searchAndCompile. -/
def askFollowUpService (r : GenResponse) : Except String (String × List Source) :=
  if r.text = "" then Except.error "No response from Gemini"
  else Except.ok (r.text, dedupByUri (extractSources r.chunks))

/- ----------------------------------------------------------------
Oracles for the remote calls.
---------------------------------------------------------------- -/

/-- Outcome of one awaited generation-service call: the transport
either produces a value or fails with a message, and abortAfterSeen
records whether the `if (signal?.aborted) throw new Error('Aborted')`
check directly after the await observes a signalled handle. -/
structure ServiceCall (α : Type) where
  result : Except String α
  abortAfterSeen : Bool
deriving Repr

/-- The pair of service calls consumed by one pass of the
search-and-compile loop. -/
structure PassOutcome where
  compile : ServiceCall GenResponse
  review : ServiceCall ReviewResult
deriving Repr

/-- All remote responses consumed by one startResearch run. -/
structure Oracle where
  brainstorm : ServiceCall (List SearchQuery)
  refine : ServiceCall (List SearchQuery)
  passes : List PassOutcome
deriving Repr

/- ----------------------------------------------------------------
Controller: error handling, search-and-compile loop, pipeline.
---------------------------------------------------------------- -/

/-- The guard `if (!topic.trim()) return;` at the top of startResearch:
topic.trim() is falsy exactly when the topic is empty or consists only
of whitespace, i.e. when every character is whitespace. -/
def isBlank (topic : String) : Bool :=
  topic.data.all Char.isWhitespace

/-- handleError from src/App.tsx.  An abort (the only thrown message
produced by the cancellation checks of the embedding is "Aborted")
logs a stopped-by-user entry at step IDLE and moves to IDLE; any other
failure moves to ERROR and logs one ERROR entry carrying the detail. -/
def handleError (s : ControllerState) (msg : String) : ControllerState :=
  if msg = "Aborted" then
    { addLog s AgentState.IDLE "Research stopped by user." none with
        state := AgentState.IDLE }
  else
    addLog { s with state := AgentState.ERROR } AgentState.ERROR
      "An error occurred" (some (LogPayload.text msg))

/-- Truthiness of the feedback argument, modelling
isRetry = !!feedback at src/App.tsx line 98: false when the argument
is absent and also when it is the empty string (both are falsy). -/
def truthy : Option String → Bool
  | none => false
  | some f => !(f == "")

/-- The phase/log updates at the top of runSearchAndCompileLoop
(src/App.tsx lines 96-108): a pass with truthy feedback is a rewrite
pass (state REWRITING, one REWRITING log entry); any other pass -
including a retry whose review feedback was the empty string - logs
SEARCHING and then moves to COMPILING. -/
def passEntry (fb : Option String) (s : ControllerState) : ControllerState :=
  if truthy fb then
    addLog { s with state := AgentState.REWRITING } AgentState.REWRITING
      ("Rewriting report (Attempt " ++ toString s.retryCount ++ "/"
        ++ toString MAX_RETRIES ++ ")...")
      (some (LogPayload.feedbackNote (fb.getD "")))
  else
    let s2 := addLog { s with state := AgentState.SEARCHING } AgentState.SEARCHING
      "Searching web (via Google Grounding) and compiling report..." none
    { s2 with state := AgentState.COMPILING }

/-- The updates between a successful compile and the review call
(src/App.tsx lines 113-125): log the source count, store the working
report with version retryCount + 1, move to REVIEWING and log.
Returns the updated state and the working report. -/
def afterCompile (topic : String) (comp : CompileResult) (s : ControllerState) :
    ControllerState × ResearchReport :=
  let s3 := addLog s AgentState.COMPILING "Report compiled. Sources found:"
    (some (LogPayload.count comp.sources.length))
  let temp : ResearchReport :=
    { topic := topic, markdown := comp.markdown, sources := comp.sources,
      score := none, feedback := none, version := s.retryCount + 1 }
  let s4 := { s3 with report := some temp }
  let s5 := addLog { s4 with state := AgentState.REVIEWING } AgentState.REVIEWING
    "Sending report to reviewer agent..." none
  (s5, temp)

set_option linter.unusedVariables false in
/-- runSearchAndCompileLoop from src/App.tsx.  The second component is
the message of the error thrown out of the loop (none when the loop
returned normally); the first component is the controller state at
that point.  The qs and prevMd arguments only feed prompts in the
source, but are kept for faithfulness. -/
def runLoop (topic : String) (qs : List SearchQuery) (fb : Option String)
    (prevMd : Option String) (passes : List PassOutcome) (s : ControllerState) :
    ControllerState × Option String :=
  match passes with
  | [] => (s, none)
  | p :: rest =>
    let s2 := passEntry fb s
    match p.compile.result with
    | Except.error m => (s2, some m)
    | Except.ok resp =>
      match searchAndCompileService resp with
      | Except.error m => (s2, some m)
      | Except.ok comp =>
        if p.compile.abortAfterSeen then (s2, some "Aborted")
        else
          let s5 := (afterCompile topic comp s2).1
          let temp := (afterCompile topic comp s2).2
          match p.review.result with
          | Except.error m => (s5, some m)
          | Except.ok review =>
            if p.review.abortAfterSeen then (s5, some "Aborted")
            else
              let s6 := addLog s5 AgentState.REVIEWING
                ("Review Complete. Score: " ++ toString review.score ++ "/5")
                (some (LogPayload.text review.feedback))
              let scored : ResearchReport :=
                { temp with score := some review.score, feedback := some review.feedback }
              let s7 := { s6 with report := some scored }
              if review.score < 4 ∧ s7.retryCount < MAX_RETRIES then
                let s8 := addLog { s7 with retryCount := s7.retryCount + 1 }
                  AgentState.REVIEWING "Score too low (<4). Initiating rewrite loop." none
                runLoop topic qs (some review.feedback) (some comp.markdown) rest s8
              else
                let s9 := addLog s7 AgentState.COMPLETED
                  (if review.score < 4 then
                    "Max retries reached. Finalizing report despite low score."
                  else "Report approved! Research complete.") none
                ({ s9 with state := AgentState.COMPLETED }, none)

/-- The reset performed at the top of startResearch: phase
BRAINSTORMING, logs/report/queries cleared, retry counter zeroed. -/
def resetState : ControllerState :=
  { state := AgentState.BRAINSTORMING, logs := [], report := none,
    queries := [], retryCount := 0 }

/-- The synchronous prefix of startResearch after the reset: the start
log entry and the brainstorm log entry, both written before the first
await (src/App.tsx lines 57-68). -/
def preBrainstormState (topic : String) : ControllerState :=
  addLog
    (addLog resetState AgentState.IDLE
      ("Starting research on: \"" ++ topic ++ "\"") none)
    AgentState.BRAINSTORMING "Brainstorming search queries..." none

/-- The state after the brainstorm call returned initialQueries and
the reflect log entries were written (src/App.tsx lines 71-75). -/
def midState (topic : String) (initialQueries : List SearchQuery) : ControllerState :=
  addLog
    { addLog (preBrainstormState topic) AgentState.BRAINSTORMING
        ("Generated " ++ toString initialQueries.length ++ " initial queries")
        (some (LogPayload.queries initialQueries)) with
      state := AgentState.REFLECTING }
    AgentState.REFLECTING "Reflecting and refining queries..." none

/-- The state after the refine call returned refinedQueries, directly
before the search-and-compile loop (src/App.tsx lines 78-79). -/
def preLoopState (topic : String) (initialQueries refinedQueries : List SearchQuery) :
    ControllerState :=
  addLog { midState topic initialQueries with queries := refinedQueries }
    AgentState.REFLECTING
    ("Selected top " ++ toString refinedQueries.length ++ " queries")
    (some (LogPayload.queries refinedQueries))

/-- The try-block of startResearch (src/App.tsx lines 65-83) run
against an oracle: brainstorm, reflect, then the search-and-compile
loop.  Returns the state reached plus the thrown error, if any. -/
def runPipeline (topic : String) (o : Oracle) : ControllerState × Option String :=
  match o.brainstorm.result with
  | Except.error m => (preBrainstormState topic, some m)
  | Except.ok initialQueries =>
    if o.brainstorm.abortAfterSeen then (preBrainstormState topic, some "Aborted")
    else
      match o.refine.result with
      | Except.error m => (midState topic initialQueries, some m)
      | Except.ok refinedQueries =>
        if o.refine.abortAfterSeen then (midState topic initialQueries, some "Aborted")
        else
          runLoop topic refinedQueries none none o.passes
            (preLoopState topic initialQueries refinedQueries)

/-- startResearch from src/App.tsx restricted to the controller state:
a blank topic returns before any side effect; otherwise the state is
reset, the pipeline runs and a thrown error is routed to handleError. -/
def startResearchCtrl (topic : String) (s0 : ControllerState) (o : Oracle) :
    ControllerState :=
  if isBlank topic then s0
  else
    match runPipeline topic o with
    | (s, some m) => handleError s m
    | (s, none) => s

/- ----------------------------------------------------------------
Cancellation handles: the AbortController reference.
---------------------------------------------------------------- -/

/-- The controller state together with the AbortController ref:
currentHandle is abortControllerRef.current (a handle is a number),
aborted is the set of handles whose abort() has been called. -/
structure SharedState where
  ctrl : ControllerState
  currentHandle : Option Nat
  aborted : List Nat
deriving DecidableEq, Repr

/-- stopResearch from src/App.tsx: signal the current handle, if any,
and discard it. -/
def stopResearchS (sh : SharedState) : SharedState :=
  match sh.currentHandle with
  | some h => { sh with aborted := sh.aborted ++ [h], currentHandle := none }
  | none => sh

/-- startResearch including the handle churn: blank topics are a
no-op; otherwise the previous handle is signalled and discarded, a
fresh handle h is installed and the pipeline runs to completion. -/
def startResearchS (topic : String) (h : Nat) (o : Oracle) (sh : SharedState) :
    SharedState :=
  if isBlank topic then sh
  else
    let sh1 := stopResearchS sh
    let sh2 := { sh1 with currentHandle := some h }
    { sh2 with ctrl := startResearchCtrl topic sh2.ctrl o }

/-- The synchronous prefix of startResearch (src/App.tsx lines 48-68),
up to the first suspension point: handle churn, state reset and the
two pre-await log entries.  The run then suspends awaiting the
brainstorm call. -/
def startSyncS (topic : String) (h : Nat) (sh : SharedState) : SharedState :=
  if isBlank topic then sh
  else
    let sh1 := stopResearchS sh
    let sh2 := { sh1 with currentHandle := some h }
    { sh2 with ctrl := preBrainstormState topic }

/-- The continuation of a run whose brainstorm await resolves after
its captured handle h was signalled: the check at src/App.tsx line 70
throws 'Aborted', which the catch at line 84 routes to handleError,
mutating whatever controller state is current at that moment.  (A run
whose handle is not signalled proceeds with the pipeline instead,
modelled by runPipeline.) -/
def resumeStaleBrainstorm (h : Nat) (sh : SharedState) : SharedState :=
  if sh.aborted.contains h then { sh with ctrl := handleError sh.ctrl "Aborted" }
  else sh

/- ----------------------------------------------------------------
Follow-up flow.
---------------------------------------------------------------- -/

/-- newUniqueSources in handleFollowUp: the returned sources whose uri
is not already present among the existing ones. -/
def freshSources (existing news : List Source) : List Source :=
  news.filter (fun t => !(existing.any (fun u => u.uri == t.uri)))

/-- The source merge of handleFollowUp (src/App.tsx lines 169-171):
existing sources followed by the fresh ones, in order. -/
def mergeSources (existing news : List Source) : List Source :=
  existing ++ freshSources existing news

/-- handleFollowUp from src/App.tsx.  Follows the source line by line:
no report means return; otherwise log and move to SEARCHING, run the
askFollowUp call (transport failure, abort check, service text check),
and on success append the answer to the markdown, merge the sources
and keep every other report field via the object spread. -/
def handleFollowUp (s : ControllerState) (query : String)
    (fu : ServiceCall GenResponse) : ControllerState :=
  match s.report with
  | none => s
  | some r =>
    let s2 := addLog { s with state := AgentState.SEARCHING } AgentState.SEARCHING
      ("Processing follow-up question: \"" ++ query ++ "\"") none
    match fu.result with
    | Except.error m => { handleError s2 m with state := AgentState.COMPLETED }
    | Except.ok resp =>
      if fu.abortAfterSeen then
        { addLog s2 AgentState.COMPLETED "Follow-up stopped by user." none with
            state := AgentState.COMPLETED }
      else
        match askFollowUpService resp with
        | Except.error m => { handleError s2 m with state := AgentState.COMPLETED }
        | Except.ok (answer, newSources) =>
          let newMarkdown := r.markdown ++ "\n\n---\n\n### Follow-up: " ++ query
            ++ "\n\n" ++ answer
          let updated : ResearchReport :=
            { r with markdown := newMarkdown,
                     sources := mergeSources r.sources newSources }
          let s3 := { s2 with report := some updated }
          let s4 := addLog s3 AgentState.COMPLETED "Follow-up answer added to report."
            (some (LogPayload.count (freshSources r.sources newSources).length))
          { s4 with state := AgentState.COMPLETED }

/- ----------------------------------------------------------------
Specification-side descriptions of the dedup and merge behaviour.
---------------------------------------------------------------- -/

/-- The uri sequence kept in first-seen order: scan the input and
append each uri the first time it is seen. -/
def firstSeenUris (us : List String) : List String :=
  us.foldl (fun ks u => if u ∈ ks then ks else ks ++ [u]) []

/-- The last element of the list whose uri equals u, if any. -/
def lastWithUri : List Source → String → Option Source
  | [], _ => none
  | s :: rest, u =>
    match lastWithUri rest u with
    | some t => some t
    | none => if s.uri == u then some s else none

/-- The merge rule in the words of the specification: keep the
existing entries, then append those incoming entries whose uri is not
already present, in order. -/
def mergeSpec (existing news : List Source) : List Source :=
  existing ++ news.filter (fun t => decide (t.uri ∉ existing.map Source.uri))

/- ----------------------------------------------------------------
Lemmas about extractSources / dedupByUri / mergeSources.
---------------------------------------------------------------- -/

theorem extractSources_mem (chunks : List (Option Source)) (w : Source) :
    w ∈ extractSources chunks ↔ some w ∈ chunks ∧ w.uri ≠ "" ∧ w.title ≠ "" := by
  unfold extractSources
  rw [List.mem_filter, List.mem_filterMap]
  constructor
  · rintro ⟨⟨a, ha, hae⟩, hp⟩
    have haw : a = some w := hae
    subst haw
    rw [Bool.and_eq_true, bne_iff_ne, bne_iff_ne] at hp
    exact ⟨ha, hp.1, hp.2⟩
  · rintro ⟨h1, h2, h3⟩
    refine ⟨⟨some w, h1, rfl⟩, ?_⟩
    rw [Bool.and_eq_true, bne_iff_ne, bne_iff_ne]
    exact ⟨h2, h3⟩

theorem any_uri_eq_true_iff (acc : List Source) (u : String) :
    (acc.any (fun t => t.uri == u) = true) ↔ u ∈ acc.map Source.uri := by
  rw [List.any_eq_true, List.mem_map]
  constructor
  · rintro ⟨t, ht, hb⟩
    exact ⟨t, ht, eq_of_beq hb⟩
  · rintro ⟨t, ht, he⟩
    exact ⟨t, ht, beq_iff_eq.mpr he⟩

theorem insertByUri_map_uri (acc : List Source) (a : Source) :
    (insertByUri acc a).map Source.uri =
      if a.uri ∈ acc.map Source.uri then acc.map Source.uri
      else acc.map Source.uri ++ [a.uri] := by
  unfold insertByUri
  by_cases h : a.uri ∈ acc.map Source.uri
  · rw [if_pos ((any_uri_eq_true_iff acc a.uri).mpr h), if_pos h, List.map_map]
    refine List.map_congr_left ?_
    intro t _
    by_cases ht : t.uri = a.uri
    · simp [Function.comp, ht]
    · simp [Function.comp, ht]
  · rw [if_neg (fun hc => h ((any_uri_eq_true_iff acc a.uri).mp hc)), if_neg h]
    simp

theorem dedup_fold_map_uri (l : List Source) :
    ∀ acc : List Source,
      (l.foldl insertByUri acc).map Source.uri =
        (l.map Source.uri).foldl (fun ks u => if u ∈ ks then ks else ks ++ [u])
          (acc.map Source.uri) := by
  induction l with
  | nil => intro acc; rfl
  | cons a l ih =>
    intro acc
    simp only [List.foldl_cons, List.map_cons]
    rw [ih (insertByUri acc a), insertByUri_map_uri]

theorem dedupByUri_map_uri (l : List Source) :
    (dedupByUri l).map Source.uri = firstSeenUris (l.map Source.uri) := by
  simpa using dedup_fold_map_uri l []

theorem firstSeen_fold_nodup (us : List String) :
    ∀ ks : List String, ks.Nodup →
      (us.foldl (fun ks u => if u ∈ ks then ks else ks ++ [u]) ks).Nodup := by
  induction us with
  | nil => intro ks h; exact h
  | cons u us ih =>
    intro ks h
    simp only [List.foldl_cons]
    by_cases hu : u ∈ ks
    · rw [if_pos hu]; exact ih ks h
    · rw [if_neg hu]
      exact ih (ks ++ [u]) (by simp [List.nodup_append, h, hu])

theorem firstSeenUris_nodup (us : List String) : (firstSeenUris us).Nodup :=
  firstSeen_fold_nodup us [] List.nodup_nil

theorem dedupByUri_uri_nodup (l : List Source) :
    ((dedupByUri l).map Source.uri).Nodup := by
  rw [dedupByUri_map_uri]; exact firstSeenUris_nodup _

theorem insertByUri_mem (acc : List Source) (a x : Source)
    (h : x ∈ insertByUri acc a) : x = a ∨ (x ∈ acc ∧ x.uri ≠ a.uri) := by
  unfold insertByUri at h
  by_cases hc : (acc.any (fun t => t.uri == a.uri)) = true
  · rw [if_pos hc, List.mem_map] at h
    obtain ⟨t, ht, hx⟩ := h
    by_cases htu : t.uri = a.uri
    · left
      rw [← hx, if_pos (beq_iff_eq.mpr htu)]
    · right
      rw [← hx, if_neg (fun hb => htu (eq_of_beq hb))]
      exact ⟨ht, htu⟩
  · rw [if_neg hc, List.mem_append] at h
    rcases h with h | h
    · right
      refine ⟨h, fun he => hc ?_⟩
      exact (any_uri_eq_true_iff acc a.uri).mpr (by rw [← he]; exact List.mem_map_of_mem _ h)
    · left; simpa using h

theorem dedup_fold_subset (l : List Source) :
    ∀ (acc : List Source) (x : Source),
      x ∈ l.foldl insertByUri acc → x ∈ acc ∨ x ∈ l := by
  induction l with
  | nil => intro acc x h; exact Or.inl h
  | cons a l ih =>
    intro acc x h
    simp only [List.foldl_cons] at h
    rcases ih (insertByUri acc a) x h with h2 | h2
    · rcases insertByUri_mem acc a x h2 with h3 | h3
      · right; rw [h3]; exact List.mem_cons_self a l
      · left; exact h3.1
    · right; exact List.mem_cons_of_mem a h2

theorem dedupByUri_subset (l : List Source) (x : Source)
    (h : x ∈ dedupByUri l) : x ∈ l := by
  rcases dedup_fold_subset l [] x h with h2 | h2
  · cases h2
  · exact h2

theorem lastWithUri_append (xs ys : List Source) (u : String) :
    lastWithUri (xs ++ ys) u =
      match lastWithUri ys u with
      | some t => some t
      | none => lastWithUri xs u := by
  induction xs with
  | nil =>
    rw [List.nil_append]
    cases lastWithUri ys u <;> rfl
  | cons x xs ih =>
    rw [List.cons_append]
    simp only [lastWithUri]
    rw [ih]
    cases lastWithUri ys u <;> cases lastWithUri xs u <;> rfl

theorem lastWithUri_replace (acc : List Source) (a : Source) (u : String) :
    lastWithUri (acc.map (fun t => if t.uri == a.uri then a else t)) u =
      if u = a.uri then
        (if acc.any (fun t => t.uri == a.uri) then some a else none)
      else lastWithUri acc u := by
  induction acc with
  | nil => by_cases h : u = a.uri <;> simp [lastWithUri, h]
  | cons x acc ih =>
    simp only [List.map_cons, lastWithUri, List.any_cons, ih]
    by_cases h : u = a.uri
    · subst h
      by_cases hx : x.uri = a.uri
      · by_cases hrest : (acc.any (fun t => t.uri == a.uri)) = true
        · simp [hx, hrest]
        · simp [hx, hrest]
      · by_cases hrest : (acc.any (fun t => t.uri == a.uri)) = true
        · simp [hx, hrest]
        · simp [hx, hrest]
    · have h2 : ¬ a.uri = u := fun hh => h hh.symm
      by_cases hx : x.uri = a.uri
      · cases hl : lastWithUri acc u
        · simp [h, h2, hx, hl]
        · simp [h, h2, hx, hl]
      · cases hl : lastWithUri acc u
        · simp [h, h2, hx, hl]
        · simp [h, h2, hx, hl]

theorem insertByUri_lastWithUri (acc : List Source) (a : Source) (u : String) :
    lastWithUri (insertByUri acc a) u = lastWithUri (acc ++ [a]) u := by
  rw [lastWithUri_append]
  unfold insertByUri
  by_cases hc : (acc.any (fun t => t.uri == a.uri)) = true
  · rw [if_pos hc, lastWithUri_replace]
    by_cases h : u = a.uri
    · subst h
      rw [if_pos rfl, if_pos hc]
      simp [lastWithUri]
    · rw [if_neg h]
      have h2 : (a.uri == u) = false := beq_eq_false_iff_ne.mpr (fun hh => h hh.symm)
      simp [lastWithUri, h2]
  · rw [if_neg hc, lastWithUri_append]

theorem dedup_fold_last (l : List Source) :
    ∀ acc : List Source,
      (∀ s ∈ acc, lastWithUri acc s.uri = some s) →
      ∀ s ∈ l.foldl insertByUri acc, lastWithUri (acc ++ l) s.uri = some s := by
  induction l with
  | nil => intro acc hacc s hs; simpa using hacc s hs
  | cons a l ih =>
    intro acc hacc s hs
    simp only [List.foldl_cons] at hs
    have hacc2 : ∀ t ∈ insertByUri acc a, lastWithUri (insertByUri acc a) t.uri = some t := by
      intro t ht
      rw [insertByUri_lastWithUri, lastWithUri_append]
      rcases insertByUri_mem acc a t ht with h | ⟨hmem, hne⟩
      · subst h; simp [lastWithUri]
      · have h3 : (a.uri == t.uri) = false := beq_eq_false_iff_ne.mpr (fun hh => hne hh.symm)
        simpa [lastWithUri, h3] using hacc t hmem
    have key : lastWithUri (acc ++ a :: l) s.uri = lastWithUri (insertByUri acc a ++ l) s.uri := by
      have hcons : acc ++ a :: l = (acc ++ [a]) ++ l := by simp
      rw [hcons, lastWithUri_append (acc ++ [a]) l s.uri,
        lastWithUri_append (insertByUri acc a) l s.uri, insertByUri_lastWithUri]
    rw [key]
    exact ih (insertByUri acc a) hacc2 s hs

theorem dedupByUri_last (l : List Source) (s : Source) (hs : s ∈ dedupByUri l) :
    lastWithUri l s.uri = some s := by
  have := dedup_fold_last l [] (by intro t ht; cases ht) s hs
  simpa using this

theorem mergeSources_eq_spec (existing news : List Source) :
    mergeSources existing news = mergeSpec existing news := by
  unfold mergeSources freshSources mergeSpec
  congr 1
  refine List.filter_congr ?_
  intro t _
  by_cases h : t.uri ∈ existing.map Source.uri
  · simp [h, (any_uri_eq_true_iff existing t.uri).mpr h]
  · simp only [decide_not]
    simp [h, fun hc => h ((any_uri_eq_true_iff existing t.uri).mp hc)]
    intro x hx hxe
    exact h (hxe ▸ List.mem_map_of_mem Source.uri hx)

theorem mergeSources_uri_nodup (existing news : List Source)
    (h1 : (existing.map Source.uri).Nodup) (h2 : (news.map Source.uri).Nodup) :
    ((mergeSources existing news).map Source.uri).Nodup := by
  rw [mergeSources_eq_spec]
  unfold mergeSpec
  rw [List.map_append, List.nodup_append]
  refine ⟨h1, ?_, ?_⟩
  · exact h2.sublist ((List.filter_sublist news).map Source.uri)
  · intro u hu1 hu2
    rw [List.mem_map] at hu2
    obtain ⟨t, ht, htu⟩ := hu2
    rw [List.mem_filter] at ht
    have := of_decide_eq_true ht.2
    rw [htu] at this
    exact this hu1

/- ----------------------------------------------------------------
Projection lemmas for the controller-state builders.
---------------------------------------------------------------- -/

/-- The number of compiled-report log entries.  Every pass of the
search-and-compile loop writes exactly one entry with step COMPILING
and this fixed message (src/App.tsx line 113), so on a completed run
this counts the compile passes: 1 + the rewrite iterations performed. -/
def compileLogCount (s : ControllerState) : Nat :=
  s.logs.countP (fun e =>
    e.step == AgentState.COMPILING && e.message == "Report compiled. Sources found:")

@[simp] theorem addLog_state (s : ControllerState) (st : AgentState) (m : String)
    (d : Option LogPayload) : (addLog s st m d).state = s.state := rfl

@[simp] theorem addLog_report (s : ControllerState) (st : AgentState) (m : String)
    (d : Option LogPayload) : (addLog s st m d).report = s.report := rfl

@[simp] theorem addLog_retryCount (s : ControllerState) (st : AgentState) (m : String)
    (d : Option LogPayload) : (addLog s st m d).retryCount = s.retryCount := rfl

@[simp] theorem addLog_queries (s : ControllerState) (st : AgentState) (m : String)
    (d : Option LogPayload) : (addLog s st m d).queries = s.queries := rfl

theorem addLog_logs (s : ControllerState) (st : AgentState) (m : String)
    (d : Option LogPayload) :
    (addLog s st m d).logs = s.logs ++ [{ step := st, message := m, details := d }] := rfl

@[simp] theorem compileLogCount_addLog (s : ControllerState) (st : AgentState)
    (m : String) (d : Option LogPayload) :
    compileLogCount (addLog s st m d) =
      compileLogCount s +
        (if st = AgentState.COMPILING ∧ m = "Report compiled. Sources found:"
         then 1 else 0) := by
  by_cases h1 : st = AgentState.COMPILING <;>
    by_cases h2 : m = "Report compiled. Sources found:" <;>
      simp [compileLogCount, addLog, List.countP_append, List.countP_cons, h1, h2]

@[simp] theorem passEntry_retryCount (fb : Option String) (s : ControllerState) :
    (passEntry fb s).retryCount = s.retryCount := by
  unfold passEntry; split <;> rfl

@[simp] theorem passEntry_report (fb : Option String) (s : ControllerState) :
    (passEntry fb s).report = s.report := by
  unfold passEntry; split <;> rfl

@[simp] theorem passEntry_queries (fb : Option String) (s : ControllerState) :
    (passEntry fb s).queries = s.queries := by
  unfold passEntry; split <;> rfl

@[simp] theorem compileLogCount_passEntry (fb : Option String) (s : ControllerState) :
    compileLogCount (passEntry fb s) = compileLogCount s := by
  unfold passEntry
  split <;> simp [compileLogCount, addLog, List.countP_append, List.countP_cons]

@[simp] theorem afterCompile_fst_state (t : String) (c : CompileResult)
    (s : ControllerState) : (afterCompile t c s).1.state = AgentState.REVIEWING := rfl

@[simp] theorem afterCompile_fst_retryCount (t : String) (c : CompileResult)
    (s : ControllerState) : (afterCompile t c s).1.retryCount = s.retryCount := rfl

@[simp] theorem afterCompile_fst_queries (t : String) (c : CompileResult)
    (s : ControllerState) : (afterCompile t c s).1.queries = s.queries := rfl

theorem afterCompile_snd (t : String) (c : CompileResult) (s : ControllerState) :
    (afterCompile t c s).2 =
      { topic := t, markdown := c.markdown, sources := c.sources,
        score := none, feedback := none, version := s.retryCount + 1 } := rfl

@[simp] theorem afterCompile_fst_report (t : String) (c : CompileResult)
    (s : ControllerState) :
    (afterCompile t c s).1.report = some (afterCompile t c s).2 := rfl

@[simp] theorem compileLogCount_afterCompile (t : String) (c : CompileResult)
    (s : ControllerState) :
    compileLogCount (afterCompile t c s).1 = compileLogCount s + 1 := by
  simp [afterCompile, compileLogCount, addLog, List.countP_append, List.countP_cons]

/- ----------------------------------------------------------------
The completed-run invariant of the search-and-compile loop.
---------------------------------------------------------------- -/

theorem runLoop_completed_spec (topic : String) (qs : List SearchQuery) :
    ∀ (passes : List PassOutcome) (fb prevMd : Option String) (s : ControllerState),
      s.state ≠ AgentState.COMPLETED →
      s.retryCount ≤ MAX_RETRIES →
      compileLogCount s = s.retryCount →
      (runLoop topic qs fb prevMd passes s).2 = none →
      (runLoop topic qs fb prevMd passes s).1.state = AgentState.COMPLETED →
      ∃ r sc, (runLoop topic qs fb prevMd passes s).1.report = some r ∧
        r.score = some sc ∧
        r.version = (runLoop topic qs fb prevMd passes s).1.retryCount + 1 ∧
        (runLoop topic qs fb prevMd passes s).1.retryCount ≤ MAX_RETRIES ∧
        (4 ≤ sc ∨ (runLoop topic qs fb prevMd passes s).1.retryCount = MAX_RETRIES) ∧
        compileLogCount (runLoop topic qs fb prevMd passes s).1 =
          (runLoop topic qs fb prevMd passes s).1.retryCount + 1 := by
  intro passes
  induction passes with
  | nil =>
    intro fb md s h1 h2 h3 hnone hcomp
    exact absurd hcomp h1
  | cons p rest ih =>
    intro fb md s h1 h2 h3
    simp only [runLoop]
    split
    · intro hnone; simp at hnone
    · split
      · intro hnone; simp at hnone
      · split
        · intro hnone; simp at hnone
        · split
          · intro hnone; simp at hnone
          · rename_i review hrev
            split
            · intro hnone; simp at hnone
            · split
              · rename_i hdec
                have hlt2 : s.retryCount < MAX_RETRIES := by
                  have := hdec.2
                  simpa using this
                refine ih _ _ _ ?_ ?_ ?_
                · simp [addLog]
                · simp
                  omega
                · cases htr : truthy fb <;>
                    simp_all [compileLogCount, passEntry, afterCompile, addLog,
                      List.countP_append, List.countP_cons]
              · rename_i hdec
                intro hnone hcompleted
                refine ⟨_, review.score, rfl, rfl, ?_, ?_, ?_, ?_⟩
                · simp [afterCompile_snd, addLog]
                · simpa using h2
                · rcases lt_or_le review.score 4 with hlt | hge
                  · right
                    have hr : ¬ s.retryCount < MAX_RETRIES := by
                      intro hc; exact hdec ⟨hlt, by simpa using hc⟩
                    have h2b : s.retryCount ≤ MAX_RETRIES := h2
                    simp
                    omega
                  · left; exact hge
                · cases htr : truthy fb <;>
                    simp_all [compileLogCount, passEntry, afterCompile, addLog,
                      List.countP_append, List.countP_cons]

/- ----------------------------------------------------------------
Log and report invariants of the loop and the pipeline.
---------------------------------------------------------------- -/

/-- No log entry was written at step ERROR. -/
def noErrorLogs (s : ControllerState) : Prop :=
  ∀ e ∈ s.logs, e.step ≠ AgentState.ERROR

/-- The current report, if any, has pairwise distinct source uris. -/
def reportUriNodup (s : ControllerState) : Prop :=
  ∀ r, s.report = some r → (r.sources.map Source.uri).Nodup

theorem noErrorLogs_addLog {s : ControllerState} {st : AgentState} {m : String}
    {d : Option LogPayload} (h : noErrorLogs s) (hst : st ≠ AgentState.ERROR) :
    noErrorLogs (addLog s st m d) := by
  intro e he
  rw [addLog_logs, List.mem_append] at he
  rcases he with he | he
  · exact h e he
  · simp at he; rw [he]; exact hst

theorem noErrorLogs_passEntry {s : ControllerState} (fb : Option String)
    (h : noErrorLogs s) : noErrorLogs (passEntry fb s) := by
  unfold passEntry
  split
  · exact noErrorLogs_addLog (s := { s with state := AgentState.REWRITING }) h (by simp)
  · exact noErrorLogs_addLog (s := { s with state := AgentState.SEARCHING }) h (by simp)

theorem noErrorLogs_afterCompile {s : ControllerState} (t : String) (c : CompileResult)
    (h : noErrorLogs s) : noErrorLogs (afterCompile t c s).1 := by
  refine noErrorLogs_addLog (noErrorLogs_addLog h (by simp)) (by simp)

theorem searchAndCompileService_ok {resp : GenResponse} {comp : CompileResult}
    (h : searchAndCompileService resp = Except.ok comp) :
    comp.markdown = resp.text ∧ comp.sources = dedupByUri (extractSources resp.chunks) := by
  unfold searchAndCompileService at h
  by_cases ht : resp.text = ""
  · rw [if_pos ht] at h; cases h
  · rw [if_neg ht] at h
    cases h
    exact ⟨rfl, rfl⟩

theorem askFollowUpService_ok {resp : GenResponse} {ans : String} {srcs : List Source}
    (h : askFollowUpService resp = Except.ok (ans, srcs)) :
    ans = resp.text ∧ srcs = dedupByUri (extractSources resp.chunks) := by
  unfold askFollowUpService at h
  by_cases ht : resp.text = ""
  · rw [if_pos ht] at h; cases h
  · rw [if_neg ht] at h
    cases h
    exact ⟨rfl, rfl⟩

theorem runLoop_noErrorLogs (topic : String) (qs : List SearchQuery) :
    ∀ (passes : List PassOutcome) (fb prevMd : Option String) (s : ControllerState),
      noErrorLogs s → noErrorLogs (runLoop topic qs fb prevMd passes s).1 := by
  intro passes
  induction passes with
  | nil => intro fb md s h; exact h
  | cons p rest ih =>
    intro fb md s h
    simp only [runLoop]
    split
    · exact noErrorLogs_passEntry fb h
    · split
      · exact noErrorLogs_passEntry fb h
      · rename_i comp hsc
        have h5 : noErrorLogs (afterCompile topic comp (passEntry fb s)).1 :=
          noErrorLogs_afterCompile topic comp (noErrorLogs_passEntry fb h)
        split
        · exact noErrorLogs_passEntry fb h
        · split
          · exact h5
          · split
            · exact h5
            · split
              · exact ih _ _ _
                  (noErrorLogs_addLog (noErrorLogs_addLog h5 (by simp)) (by simp))
              · exact noErrorLogs_addLog (noErrorLogs_addLog h5 (by simp)) (by simp)

theorem runLoop_reportUriNodup (topic : String) (qs : List SearchQuery) :
    ∀ (passes : List PassOutcome) (fb prevMd : Option String) (s : ControllerState),
      reportUriNodup s → reportUriNodup (runLoop topic qs fb prevMd passes s).1 := by
  intro passes
  induction passes with
  | nil => intro fb md s h; exact h
  | cons p rest ih =>
    intro fb md s h
    have hpe : reportUriNodup (passEntry fb s) := by
      intro r hr; rw [passEntry_report] at hr; exact h r hr
    simp only [runLoop]
    split
    · exact hpe
    · split
      · exact hpe
      · rename_i comp hsc
        have hsrc : (comp.sources.map Source.uri).Nodup := by
          rw [(searchAndCompileService_ok hsc).2]
          exact dedupByUri_uri_nodup _
        have hac : reportUriNodup (afterCompile topic comp (passEntry fb s)).1 := by
          intro r hr
          rw [afterCompile_fst_report] at hr
          cases hr
          rw [afterCompile_snd]
          exact hsrc
        split
        · exact hpe
        · split
          · exact hac
          · split
            · exact hac
            · split
              · refine ih _ _ _ ?_
                intro r hr
                simp only [addLog_report] at hr
                cases hr
                exact hsrc
              · intro r hr
                simp only [addLog_report] at hr
                cases hr
                exact hsrc

/- ----------------------------------------------------------------
Pipeline-level lemmas.
---------------------------------------------------------------- -/

/-- The number of ERROR-step log entries. -/
def errorLogCount (s : ControllerState) : Nat :=
  s.logs.countP (fun e => decide (e.step = AgentState.ERROR))

theorem noErrorLogs_errorLogCount {s : ControllerState} (h : noErrorLogs s) :
    errorLogCount s = 0 := by
  unfold errorLogCount
  rw [List.countP_eq_zero]
  intro e he
  simpa using h e he

theorem preBrainstormState_noErrorLogs (topic : String) :
    noErrorLogs (preBrainstormState topic) := by
  intro e he
  simp [preBrainstormState, addLog, resetState] at he
  rcases he with rfl | rfl <;> simp

@[simp] theorem preBrainstormState_report (topic : String) :
    (preBrainstormState topic).report = none := rfl

@[simp] theorem midState_report (topic : String) (qs0 : List SearchQuery) :
    (midState topic qs0).report = none := rfl

@[simp] theorem preLoopState_report (topic : String) (qs0 rqs : List SearchQuery) :
    (preLoopState topic qs0 rqs).report = none := rfl

@[simp] theorem preLoopState_state (topic : String) (qs0 rqs : List SearchQuery) :
    (preLoopState topic qs0 rqs).state = AgentState.REFLECTING := rfl

@[simp] theorem preLoopState_retryCount (topic : String) (qs0 rqs : List SearchQuery) :
    (preLoopState topic qs0 rqs).retryCount = 0 := rfl

theorem midState_noErrorLogs (topic : String) (qs0 : List SearchQuery) :
    noErrorLogs (midState topic qs0) := by
  unfold midState
  refine noErrorLogs_addLog ?_ (by simp)
  intro e he
  exact noErrorLogs_addLog (preBrainstormState_noErrorLogs topic) (by simp) e he

theorem preLoopState_noErrorLogs (topic : String) (qs0 rqs : List SearchQuery) :
    noErrorLogs (preLoopState topic qs0 rqs) := by
  unfold preLoopState
  refine noErrorLogs_addLog ?_ (by simp)
  intro e he
  exact midState_noErrorLogs topic qs0 e he

theorem handleError_report (s : ControllerState) (m : String) :
    (handleError s m).report = s.report := by
  unfold handleError; split <;> rfl

theorem handleError_retryCount (s : ControllerState) (m : String) :
    (handleError s m).retryCount = s.retryCount := by
  unfold handleError; split <;> rfl

theorem handleError_state (s : ControllerState) (m : String) :
    (handleError s m).state = AgentState.IDLE ∨ (handleError s m).state = AgentState.ERROR := by
  unfold handleError; split
  · left; rfl
  · right; rfl

theorem handleError_abort (s : ControllerState) :
    handleError s "Aborted" =
      { addLog s AgentState.IDLE "Research stopped by user." none with
          state := AgentState.IDLE } := by
  unfold handleError
  rw [if_pos rfl]

theorem handleError_generic (s : ControllerState) (m : String) (hm : m ≠ "Aborted") :
    handleError s m =
      addLog { s with state := AgentState.ERROR } AgentState.ERROR
        "An error occurred" (some (LogPayload.text m)) := by
  unfold handleError
  rw [if_neg hm]

theorem runPipeline_noErrorLogs (topic : String) (o : Oracle) :
    noErrorLogs (runPipeline topic o).1 := by
  unfold runPipeline
  split
  · exact preBrainstormState_noErrorLogs topic
  · split
    · exact preBrainstormState_noErrorLogs topic
    · split
      · exact midState_noErrorLogs topic _
      · split
        · exact midState_noErrorLogs topic _
        · exact runLoop_noErrorLogs topic _ o.passes none none _
            (preLoopState_noErrorLogs topic _ _)

theorem runPipeline_reportUriNodup (topic : String) (o : Oracle) :
    reportUriNodup (runPipeline topic o).1 := by
  unfold runPipeline
  split
  · intro r hr; simp at hr
  · split
    · intro r hr; simp at hr
    · split
      · intro r hr; simp at hr
      · split
        · intro r hr; simp at hr
        · refine runLoop_reportUriNodup topic _ o.passes none none _ ?_
          intro r hr; simp at hr

theorem runPipeline_brainstorm_error (topic : String) (o : Oracle) (m : String)
    (h : o.brainstorm.result = Except.error m) :
    runPipeline topic o = (preBrainstormState topic, some m) := by
  unfold runPipeline
  rw [h]

theorem runPipeline_completed_spec (topic : String) (o : Oracle)
    (hnone : (runPipeline topic o).2 = none)
    (hcomp : (runPipeline topic o).1.state = AgentState.COMPLETED) :
    ∃ r sc, (runPipeline topic o).1.report = some r ∧
      r.score = some sc ∧
      r.version = (runPipeline topic o).1.retryCount + 1 ∧
      (runPipeline topic o).1.retryCount ≤ MAX_RETRIES ∧
      (4 ≤ sc ∨ (runPipeline topic o).1.retryCount = MAX_RETRIES) ∧
      compileLogCount (runPipeline topic o).1 = (runPipeline topic o).1.retryCount + 1 := by
  rcases hbr : o.brainstorm.result with m | qs0
  · simp [runPipeline, hbr] at hnone
  · cases hba : o.brainstorm.abortAfterSeen with
    | true => simp [runPipeline, hbr, hba] at hnone
    | false =>
      rcases hrf : o.refine.result with m | rqs
      · simp [runPipeline, hbr, hba, hrf] at hnone
      · cases hra : o.refine.abortAfterSeen with
        | true => simp [runPipeline, hbr, hba, hrf, hra] at hnone
        | false =>
          have hrun : runPipeline topic o =
              runLoop topic rqs none none o.passes (preLoopState topic qs0 rqs) := by
            simp [runPipeline, hbr, hba, hrf, hra]
          rw [hrun] at hnone hcomp ⊢
          refine runLoop_completed_spec topic rqs o.passes none none _ ?_ ?_ ?_ hnone hcomp
          · simp
          · simp [MAX_RETRIES]
          · simp [compileLogCount, preLoopState, midState, preBrainstormState, resetState,
              addLog, List.countP_append, List.countP_cons]

/- ----------------------------------------------------------------
The controller never reads ReviewResult.approved.
---------------------------------------------------------------- -/

/-- A ReviewResult with its approved flag forced to the value the
specification prescribes (score at least 4). -/
def normalizeReview (r : ReviewResult) : ReviewResult :=
  { r with approved := decide (4 ≤ r.score) }

/-- A pass outcome with its review normalized. -/
def normalizePass (p : PassOutcome) : PassOutcome :=
  { p with review := { p.review with result := p.review.result.map normalizeReview } }

@[simp] theorem normalizePass_compile (p : PassOutcome) :
    (normalizePass p).compile = p.compile := rfl

@[simp] theorem normalizePass_review_result (p : PassOutcome) :
    (normalizePass p).review.result = p.review.result.map normalizeReview := rfl

@[simp] theorem normalizePass_review_abort (p : PassOutcome) :
    (normalizePass p).review.abortAfterSeen = p.review.abortAfterSeen := rfl

@[simp] theorem normalizeReview_score (r : ReviewResult) :
    (normalizeReview r).score = r.score := rfl

@[simp] theorem normalizeReview_feedback (r : ReviewResult) :
    (normalizeReview r).feedback = r.feedback := rfl

theorem runLoop_ignores_approved (topic : String) (qs : List SearchQuery) :
    ∀ (passes : List PassOutcome) (fb prevMd : Option String) (s : ControllerState),
      runLoop topic qs fb prevMd (passes.map normalizePass) s =
        runLoop topic qs fb prevMd passes s := by
  intro passes
  induction passes with
  | nil => intro fb md s; rfl
  | cons p rest ih =>
    intro fb md s
    simp only [List.map_cons, runLoop, normalizePass_compile, normalizePass_review_result,
      normalizePass_review_abort]
    cases hcr : p.compile.result with
    | error m => rfl
    | ok resp =>
      simp only []
      cases hsc : searchAndCompileService resp with
      | error m => rfl
      | ok comp =>
        simp only []
        cases hab : p.compile.abortAfterSeen with
        | true => simp
        | false =>
          simp only [Bool.false_eq_true, if_false]
          cases hrr : p.review.result with
          | error m => simp [Except.map]
          | ok review =>
            simp [Except.map, ih]

/- ----------------------------------------------------------------
startResearch dispatch and follow-up lemmas.
---------------------------------------------------------------- -/

theorem startResearchCtrl_thrown (topic : String) (s0 : ControllerState) (o : Oracle)
    (ps : ControllerState) (m : String)
    (hb : isBlank topic = false) (hrp : runPipeline topic o = (ps, some m)) :
    startResearchCtrl topic s0 o = handleError ps m := by
  unfold startResearchCtrl
  rw [if_neg (by simp [hb]), hrp]

theorem startResearchCtrl_normal (topic : String) (s0 : ControllerState) (o : Oracle)
    (ps : ControllerState)
    (hb : isBlank topic = false) (hrp : runPipeline topic o = (ps, none)) :
    startResearchCtrl topic s0 o = ps := by
  unfold startResearchCtrl
  rw [if_neg (by simp [hb]), hrp]

theorem handleFollowUp_success (s : ControllerState) (r : ResearchReport)
    (query : String) (fu : ServiceCall GenResponse) (resp : GenResponse)
    (hrep : s.report = some r) (hres : fu.result = Except.ok resp)
    (hab : fu.abortAfterSeen = false) (htext : resp.text ≠ "") :
    (handleFollowUp s query fu).report =
      some { r with
        markdown := r.markdown ++ "\n\n---\n\n### Follow-up: " ++ query
          ++ "\n\n" ++ resp.text,
        sources := mergeSources r.sources (dedupByUri (extractSources resp.chunks)) } ∧
    (handleFollowUp s query fu).state = AgentState.COMPLETED := by
  unfold handleFollowUp
  rw [hrep, hres, hab]
  simp only [askFollowUpService, if_neg htext]
  refine ⟨?_, ?_⟩ <;> rfl

theorem handleFollowUp_reportUriNodup (s : ControllerState) (query : String)
    (fu : ServiceCall GenResponse) (h : reportUriNodup s) :
    reportUriNodup (handleFollowUp s query fu) := by
  unfold handleFollowUp
  split
  · exact h
  · rename_i r hrep
    split
    · intro r2 hr2
      rw [handleError_report] at hr2
      simp only [addLog_report] at hr2
      exact h r2 hr2
    · split
      · intro r2 hr2
        simp only [addLog_report] at hr2
        exact h r2 hr2
      · split
        · intro r2 hr2
          rw [handleError_report] at hr2
          simp only [addLog_report] at hr2
          exact h r2 hr2
        · rename_i pair ans newSources hsvc
          intro r2 hr2
          simp only [addLog_report] at hr2
          cases hr2
          have hnew : (newSources.map Source.uri).Nodup := by
            rw [(askFollowUpService_ok hsvc).2]
            exact dedupByUri_uri_nodup _
          exact mergeSources_uri_nodup _ _ (h r hrep) hnew

/- ----------------------------------------------------------------
Concrete sample data used by the witnesses.
---------------------------------------------------------------- -/

/-- A sample brainstormed query. -/
def sampleQuery : SearchQuery := { query := "q1", rationale := "r1" }

/-- A sample grounded source. -/
def sampleSource : Source := { title := "t", uri := "u" }

/-- A well-formed compile response carrying one source. -/
def goodResponse : GenResponse := { text := "body", chunks := [some sampleSource] }

/-- One loop pass whose compile succeeds and whose review returns the
given score. -/
def scoredPass (sc : Int) : PassOutcome :=
  { compile := { result := Except.ok goodResponse, abortAfterSeen := false },
    review := { result := Except.ok { score := sc, feedback := "fb", approved := true },
                abortAfterSeen := false } }

/-- A run whose first review approves the report. -/
def oracleApproved : Oracle :=
  { brainstorm := { result := Except.ok [sampleQuery], abortAfterSeen := false },
    refine := { result := Except.ok [sampleQuery], abortAfterSeen := false },
    passes := [scoredPass 5] }

/-- A run stopped by the user during the brainstorm call. -/
def oracleAborted : Oracle :=
  { brainstorm := { result := Except.ok [sampleQuery], abortAfterSeen := true },
    refine := { result := Except.ok [sampleQuery], abortAfterSeen := false },
    passes := [] }

/-- A run whose brainstorm call returns no text content. -/
def oracleFailing : Oracle :=
  { brainstorm := { result := Except.error "No response from Gemini", abortAfterSeen := false },
    refine := { result := Except.ok [sampleQuery], abortAfterSeen := false },
    passes := [] }

/-- A terminal state holding a completed report, used for follow-up
witnesses. -/
def completedState : ControllerState :=
  { state := AgentState.COMPLETED, logs := [],
    report := some { topic := "t", markdown := "md", sources := [sampleSource],
                     score := some 5, feedback := some "fb", version := 1 },
    queries := [sampleQuery], retryCount := 0 }

/- ----------------------------------------------------------------
C1: terminal decision of the review loop.
---------------------------------------------------------------- -/

/-- C1: after a review the controller either rewrites (score < 4 and
retries left) or transitions to COMPLETED, so every run that reaches
COMPLETED carries a scored report whose score is at least 4 or has
exhausted the retry budget (retryCount = MAX_RETRIES), and never both
score < 4 and retryCount < MAX_RETRIES. -/
theorem c1_completed_score_or_budget (topic : String) (s0 : ControllerState)
    (o : Oracle) (hb : isBlank topic = false)
    (hc : (startResearchCtrl topic s0 o).state = AgentState.COMPLETED) :
    ∃ r sc, (startResearchCtrl topic s0 o).report = some r ∧
      r.score = some sc ∧
      (4 ≤ sc ∨ (startResearchCtrl topic s0 o).retryCount = MAX_RETRIES) ∧
      ¬(sc < 4 ∧ (startResearchCtrl topic s0 o).retryCount < MAX_RETRIES) := by
  rcases hrp : runPipeline topic o with ⟨ps, pe⟩
  cases pe with
  | some m =>
    rw [startResearchCtrl_thrown topic s0 o ps m hb hrp] at hc
    rcases handleError_state ps m with h | h <;> rw [h] at hc <;> exact absurd hc (by decide)
  | none =>
    rw [startResearchCtrl_normal topic s0 o ps hb hrp] at hc ⊢
    have hx := runPipeline_completed_spec topic o (by rw [hrp]) (by rw [hrp]; exact hc)
    rw [hrp] at hx
    simp only [] at hx
    obtain ⟨r, sc, h1, h2, h3, h4, h5, h6⟩ := hx
    refine ⟨r, sc, h1, h2, h5, ?_⟩
    rintro ⟨hlt, hlt2⟩
    rcases h5 with h5 | h5
    · omega
    · omega

/-- Witness for C1 at a concrete approving run. -/
theorem c1_witness :
    ∃ r sc, (startResearchCtrl "t" resetState oracleApproved).report = some r ∧
      r.score = some sc ∧
      (4 ≤ sc ∨ (startResearchCtrl "t" resetState oracleApproved).retryCount = MAX_RETRIES) ∧
      ¬(sc < 4 ∧ (startResearchCtrl "t" resetState oracleApproved).retryCount < MAX_RETRIES) :=
  c1_completed_score_or_budget "t" resetState oracleApproved (by decide) (by decide)

/- ----------------------------------------------------------------
C2: version bookkeeping.
---------------------------------------------------------------- -/

/-- C2: each compile pass stores the working report with version
retryCount + 1 (retryCount starting at 0 for the first compile), so a
completed run has Report.version = retryCount + 1 where the final
retryCount is the number of rewrite iterations performed; equivalently
the version equals the number of compile passes logged (one compiled
log entry per pass: the initial compile plus one per rewrite), and the
rewrite count never exceeds MAX_RETRIES. -/
theorem c2_version_counts_rewrites (topic : String) (s0 : ControllerState)
    (o : Oracle) (hb : isBlank topic = false)
    (hc : (startResearchCtrl topic s0 o).state = AgentState.COMPLETED) :
    ∃ r, (startResearchCtrl topic s0 o).report = some r ∧
      r.version = (startResearchCtrl topic s0 o).retryCount + 1 ∧
      r.version = compileLogCount (startResearchCtrl topic s0 o) ∧
      (startResearchCtrl topic s0 o).retryCount ≤ MAX_RETRIES := by
  rcases hrp : runPipeline topic o with ⟨ps, pe⟩
  cases pe with
  | some m =>
    rw [startResearchCtrl_thrown topic s0 o ps m hb hrp] at hc
    rcases handleError_state ps m with h | h <;> rw [h] at hc <;> exact absurd hc (by decide)
  | none =>
    rw [startResearchCtrl_normal topic s0 o ps hb hrp] at hc ⊢
    have hx := runPipeline_completed_spec topic o (by rw [hrp]) (by rw [hrp]; exact hc)
    rw [hrp] at hx
    simp only [] at hx
    obtain ⟨r, sc, h1, h2, h3, h4, h5, h6⟩ := hx
    exact ⟨r, h1, h3, by rw [h6]; exact h3, h4⟩

/-- Witness for C2 at a concrete approving run. -/
theorem c2_witness :
    ∃ r, (startResearchCtrl "t" resetState oracleApproved).report = some r ∧
      r.version = (startResearchCtrl "t" resetState oracleApproved).retryCount + 1 ∧
      r.version = compileLogCount (startResearchCtrl "t" resetState oracleApproved) ∧
      (startResearchCtrl "t" resetState oracleApproved).retryCount ≤ MAX_RETRIES :=
  c2_version_counts_rewrites "t" resetState oracleApproved (by decide) (by decide)

/- ----------------------------------------------------------------
C3: source deduplication and merging.
---------------------------------------------------------------- -/

/-- C3 counterexample: when two grounding chunks share a uri with
different titles, the deduplication of searchAndCompile keeps the
last-seen entry, not the first-seen one, so the claim that the
first-seen entry wins is false on the code. -/
theorem c3_counterexample :
    dedupByUri [{ title := "t1", uri := "u" }, { title := "t2", uri := "u" }] =
      [{ title := "t2", uri := "u" }] ∧
    ({ title := "t1", uri := "u" } : Source) ∉
      dedupByUri [{ title := "t1", uri := "u" }, { title := "t2", uri := "u" }] ∧
    searchAndCompileService
        { text := "body",
          chunks := [some { title := "t1", uri := "u" }, some { title := "t2", uri := "u" }] } =
      Except.ok { markdown := "body", sources := [{ title := "t2", uri := "u" }] } :=
  ⟨by decide, by decide, rfl⟩

/-- C3 (amended): every operation that updates Report.sources leaves
its uris pairwise distinct; the dedup keeps first-seen order of uris
but the surviving entry for a duplicated uri is the last-seen one (not
the first-seen); a follow-up merge appends exactly the incoming
entries whose uri is not already present, in order, after the existing
entries, and preserves uniqueness. -/
theorem c3_sources_dedup_and_merge :
    (∀ l : List Source,
      ((dedupByUri l).map Source.uri).Nodup ∧
      (dedupByUri l).map Source.uri = firstSeenUris (l.map Source.uri) ∧
      ∀ s2 ∈ dedupByUri l, lastWithUri l s2.uri = some s2) ∧
    (∀ existing news : List Source,
      mergeSources existing news = mergeSpec existing news ∧
      ((existing.map Source.uri).Nodup → (news.map Source.uri).Nodup →
        ((mergeSources existing news).map Source.uri).Nodup)) ∧
    (∀ (topic : String) (s0 : ControllerState) (o : Oracle) (r : ResearchReport),
      isBlank topic = false →
      (startResearchCtrl topic s0 o).report = some r →
      (r.sources.map Source.uri).Nodup) ∧
    (∀ (s : ControllerState) (query : String) (fu : ServiceCall GenResponse),
      reportUriNodup s → reportUriNodup (handleFollowUp s query fu)) := by
  refine ⟨?_, ?_, ?_, ?_⟩
  · intro l
    exact ⟨dedupByUri_uri_nodup l, dedupByUri_map_uri l, dedupByUri_last l⟩
  · intro existing news
    exact ⟨mergeSources_eq_spec existing news, mergeSources_uri_nodup existing news⟩
  · intro topic s0 o r hb hr
    rcases hrp : runPipeline topic o with ⟨ps, pe⟩
    have hn : reportUriNodup ps := by
      have := runPipeline_reportUriNodup topic o
      rw [hrp] at this
      exact this
    cases pe with
    | some m =>
      rw [startResearchCtrl_thrown topic s0 o ps m hb hrp, handleError_report] at hr
      exact hn r hr
    | none =>
      rw [startResearchCtrl_normal topic s0 o ps hb hrp] at hr
      exact hn r hr
  · exact handleFollowUp_reportUriNodup

/-- Witness for C3 applying the controller-level invariant to a
concrete approving run. -/
theorem c3_witness :
    ((({ topic := "t", markdown := "body", sources := [sampleSource],
         score := some 5, feedback := some "fb",
         version := 1 } : ResearchReport).sources.map Source.uri)).Nodup :=
  c3_sources_dedup_and_merge.2.2.1 "t" resetState oracleApproved _ (by decide) (by decide)

/- ----------------------------------------------------------------
C4: approved versus score.
---------------------------------------------------------------- -/

/-- A review whose approved flag contradicts its score. -/
def inconsistentReview : ReviewResult := { score := 5, feedback := "fine", approved := false }

/-- An otherwise well-formed run whose single review carries the
inconsistent approved flag. -/
def oracleInconsistent : Oracle :=
  { brainstorm := { result := Except.ok [sampleQuery], abortAfterSeen := false },
    refine := { result := Except.ok [sampleQuery], abortAfterSeen := false },
    passes := [ { compile := { result := Except.ok goodResponse, abortAfterSeen := false },
                  review := { result := Except.ok inconsistentReview,
                              abortAfterSeen := false } } ] }

/-- C4 counterexample: the service can hand the controller a
ReviewResult with approved = false and score = 5; the controller acts
on it (the run completes and folds exactly this score into the
report), so it is not true that every ReviewResult the controller acts
on satisfies approved = (score at least 4). -/
theorem c4_counterexample :
    ¬(inconsistentReview.approved = true ↔ 4 ≤ inconsistentReview.score) ∧
    (startResearchCtrl "t" resetState oracleInconsistent).state = AgentState.COMPLETED ∧
    (startResearchCtrl "t" resetState oracleInconsistent).report =
      some { topic := "t", markdown := "body", sources := [sampleSource],
             score := some 5, feedback := some "fine", version := 1 } :=
  ⟨by decide, by decide, by decide⟩

/-- An oracle whose reviews have their approved flag overwritten with
the specification value score >= 4; everything else is unchanged. -/
def normalizeOracle (o : Oracle) : Oracle :=
  { o with passes := o.passes.map normalizePass }

@[simp] theorem normalizeOracle_brainstorm (o : Oracle) :
    (normalizeOracle o).brainstorm = o.brainstorm := rfl

@[simp] theorem normalizeOracle_refine (o : Oracle) :
    (normalizeOracle o).refine = o.refine := rfl

@[simp] theorem normalizeOracle_passes (o : Oracle) :
    (normalizeOracle o).passes = o.passes.map normalizePass := rfl

/-- C4 (amended): the controller never reads ReviewResult.approved:
forcing approved to the specification value score >= 4 in every
review leaves every run of the controller unchanged, so the
loop-continuation decision depends on the score alone and is
consistent with the equivalence approved = (score >= 4). -/
theorem c4_controller_ignores_approved (topic : String) (s0 : ControllerState)
    (o : Oracle) :
    startResearchCtrl topic s0 (normalizeOracle o) = startResearchCtrl topic s0 o := by
  unfold startResearchCtrl
  by_cases hb : isBlank topic = true
  · rw [if_pos hb, if_pos hb]
  · rw [if_neg hb, if_neg hb]
    have hp : runPipeline topic (normalizeOracle o) = runPipeline topic o := by
      unfold runPipeline
      simp only [normalizeOracle_brainstorm, normalizeOracle_refine, normalizeOracle_passes]
      cases o.brainstorm.result with
      | error m => rfl
      | ok qs0 =>
        simp only []
        by_cases hba : o.brainstorm.abortAfterSeen = true
        · rw [if_pos hba, if_pos hba]
        · rw [if_neg hba, if_neg hba]
          cases o.refine.result with
          | error m => rfl
          | ok rqs =>
            simp only []
            by_cases hra : o.refine.abortAfterSeen = true
            · rw [if_pos hra, if_pos hra]
            · rw [if_neg hra, if_neg hra]
              exact runLoop_ignores_approved topic rqs o.passes none none _
    rw [hp]

/- ----------------------------------------------------------------
C5: stop during the main pipeline.
---------------------------------------------------------------- -/

/-- C5: when the main pipeline is stopped (a cancellation check throws
Aborted), the run ends in IDLE with a stopped-by-user log entry
appended, no ERROR-step entry is ever in the log and the phase is not
ERROR. -/
theorem c5_stop_goes_idle (topic : String) (s0 : ControllerState) (o : Oracle)
    (hb : isBlank topic = false)
    (habort : (runPipeline topic o).2 = some "Aborted") :
    (startResearchCtrl topic s0 o).state = AgentState.IDLE ∧
    (startResearchCtrl topic s0 o).state ≠ AgentState.ERROR ∧
    (startResearchCtrl topic s0 o).logs =
      (runPipeline topic o).1.logs ++
        [{ step := AgentState.IDLE, message := "Research stopped by user.",
           details := none }] ∧
    ∀ e ∈ (startResearchCtrl topic s0 o).logs, e.step ≠ AgentState.ERROR := by
  rcases hrp : runPipeline topic o with ⟨ps, pe⟩
  rw [hrp] at habort
  simp only [] at habort
  subst habort
  rw [startResearchCtrl_thrown topic s0 o ps _ hb hrp, handleError_abort]
  have hne : noErrorLogs ps := by
    have := runPipeline_noErrorLogs topic o
    rw [hrp] at this
    exact this
  refine ⟨rfl, by simp, ?_, ?_⟩
  · rfl
  · intro e he
    have he2 : e ∈ ps.logs ++
        [{ step := AgentState.IDLE, message := "Research stopped by user.",
           details := none }] := he
    rcases List.mem_append.mp he2 with h | h
    · exact hne e h
    · simp at h
      rw [h]
      decide

/-- Witness for C5 at a run stopped during brainstorm. -/
theorem c5_witness :
    (startResearchCtrl "t" resetState oracleAborted).state = AgentState.IDLE ∧
    (startResearchCtrl "t" resetState oracleAborted).state ≠ AgentState.ERROR ∧
    (startResearchCtrl "t" resetState oracleAborted).logs =
      (runPipeline "t" oracleAborted).1.logs ++
        [{ step := AgentState.IDLE, message := "Research stopped by user.",
           details := none }] ∧
    ∀ e ∈ (startResearchCtrl "t" resetState oracleAborted).logs,
      e.step ≠ AgentState.ERROR :=
  c5_stop_goes_idle "t" resetState oracleAborted (by decide) (by decide)

/- ----------------------------------------------------------------
C6: generic service failure.
---------------------------------------------------------------- -/

/-- C6: a generic service failure (any thrown message other than
Aborted, in particular "No response from Gemini") aborts the whole
pipeline: the phase becomes ERROR, exactly one ERROR-step log entry is
appended and it carries the error detail; when the failing step is the
brainstorm call, no report was ever created. -/
theorem c6_generic_failure_goes_error (topic : String) (s0 : ControllerState)
    (o : Oracle) (m : String) (hb : isBlank topic = false)
    (herr : (runPipeline topic o).2 = some m) (hm : m ≠ "Aborted") :
    (startResearchCtrl topic s0 o).state = AgentState.ERROR ∧
    errorLogCount (startResearchCtrl topic s0 o) = 1 ∧
    (startResearchCtrl topic s0 o).logs =
      (runPipeline topic o).1.logs ++
        [{ step := AgentState.ERROR, message := "An error occurred",
           details := some (LogPayload.text m) }] ∧
    ∀ m2, o.brainstorm.result = Except.error m2 →
      (startResearchCtrl topic s0 o).report = none := by
  rcases hrp : runPipeline topic o with ⟨ps, pe⟩
  rw [hrp] at herr
  simp only [] at herr
  subst herr
  rw [startResearchCtrl_thrown topic s0 o ps _ hb hrp, handleError_generic ps m hm]
  have hne : noErrorLogs ps := by
    have := runPipeline_noErrorLogs topic o
    rw [hrp] at this
    exact this
  refine ⟨rfl, ?_, ?_, ?_⟩
  · unfold errorLogCount
    rw [addLog_logs]
    rw [List.countP_append]
    have h0 : errorLogCount { ps with state := AgentState.ERROR } = 0 :=
      noErrorLogs_errorLogCount (s := { ps with state := AgentState.ERROR }) hne
    unfold errorLogCount at h0
    rw [h0]
    rfl
  · rfl
  · intro m2 hbr
    have hpre := runPipeline_brainstorm_error topic o m2 hbr
    rw [hpre] at hrp
    injection hrp with h1e h2e
    rw [addLog_report, ← h1e]
    rfl

/-- Witness for C6 at a brainstorm call that returned no content. -/
theorem c6_witness :
    (startResearchCtrl "t" resetState oracleFailing).state = AgentState.ERROR ∧
    errorLogCount (startResearchCtrl "t" resetState oracleFailing) = 1 ∧
    (startResearchCtrl "t" resetState oracleFailing).logs =
      (runPipeline "t" oracleFailing).1.logs ++
        [{ step := AgentState.ERROR, message := "An error occurred",
           details := some (LogPayload.text "No response from Gemini") }] ∧
    ∀ m2, oracleFailing.brainstorm.result = Except.error m2 →
      (startResearchCtrl "t" resetState oracleFailing).report = none :=
  c6_generic_failure_goes_error "t" resetState oracleFailing "No response from Gemini"
    (by decide) (by decide) (by decide)

/- ----------------------------------------------------------------
C7: a second start while a run is in flight.
---------------------------------------------------------------- -/

/-- A quiescent shared state: no run, no handle. -/
def idleShared : SharedState :=
  { ctrl := { state := AgentState.IDLE, logs := [], report := none,
              queries := [], retryCount := 0 },
    currentHandle := none, aborted := [] }

/-- Run one: first start, suspended awaiting its brainstorm call. -/
def runOneSuspended : SharedState := startSyncS "topic A" 1 idleShared

/-- Run two starts while run one is still awaiting: its synchronous
prefix signals and discards handle 1, installs handle 2 and resets the
controller state. -/
def runTwoStarted : SharedState := startSyncS "topic B" 2 runOneSuspended

/-- The shared state after the late brainstorm response of run one
arrives and its continuation executes against handle 1. -/
def afterStaleResume : SharedState := resumeStaleBrainstorm 1 runTwoStarted

/-- C7: the first part of the claim holds (the old handle is
signalled and discarded before the new one is installed), but the
second part fails on the code: the stale run's abort handling runs
handleError, which sets the shared phase to IDLE (run two had phase
BRAINSTORMING) and appends a stopped-by-user entry to the log sequence
that already belongs to run two — the late response does mutate the
second run's state. -/
theorem c7_stale_resume_mutates_second_run :
    runTwoStarted.aborted = [1] ∧
    runTwoStarted.currentHandle = some 2 ∧
    runTwoStarted.ctrl.state = AgentState.BRAINSTORMING ∧
    afterStaleResume.ctrl.state = AgentState.IDLE ∧
    afterStaleResume.ctrl.logs =
      runTwoStarted.ctrl.logs ++
        [{ step := AgentState.IDLE, message := "Research stopped by user.",
           details := none }] ∧
    afterStaleResume.ctrl ≠ runTwoStarted.ctrl :=
  ⟨by decide, by decide, by decide, by decide, by decide, by decide⟩

/- ----------------------------------------------------------------
C8: follow-up frame conditions.
---------------------------------------------------------------- -/

/-- C8: a successful follow-up appends the answer to the markdown and
merges the sources, and leaves topic, version, score and feedback of
the report unchanged. -/
theorem c8_followup_frame (s : ControllerState) (r : ResearchReport)
    (query : String) (fu : ServiceCall GenResponse) (resp : GenResponse)
    (hrep : s.report = some r) (hres : fu.result = Except.ok resp)
    (hab : fu.abortAfterSeen = false) (htext : resp.text ≠ "") :
    ∃ r2, (handleFollowUp s query fu).report = some r2 ∧
      r2.topic = r.topic ∧
      r2.version = r.version ∧
      r2.score = r.score ∧
      r2.feedback = r.feedback ∧
      r2.markdown = r.markdown ++ "\n\n---\n\n### Follow-up: " ++ query
        ++ "\n\n" ++ resp.text ∧
      r2.sources = mergeSources r.sources (dedupByUri (extractSources resp.chunks)) := by
  obtain ⟨hrep2, _⟩ := handleFollowUp_success s r query fu resp hrep hres hab htext
  exact ⟨_, hrep2, rfl, rfl, rfl, rfl, rfl, rfl⟩

/-- A follow-up service call returning an answer and one new source. -/
def followUpCall : ServiceCall GenResponse :=
  { result := Except.ok { text := "answer", chunks := [some { title := "t2", uri := "u2" }] },
    abortAfterSeen := false }

/-- Witness for C8 at a concrete completed report. -/
theorem c8_witness :
    ∃ r2, (handleFollowUp completedState "why" followUpCall).report = some r2 ∧
      r2.topic = "t" ∧
      r2.version = 1 ∧
      r2.score = some 5 ∧
      r2.feedback = some "fb" ∧
      r2.markdown = "md" ++ "\n\n---\n\n### Follow-up: " ++ "why"
        ++ "\n\n" ++ "answer" ∧
      r2.sources = mergeSources [sampleSource]
        (dedupByUri (extractSources [some { title := "t2", uri := "u2" }])) :=
  c8_followup_frame completedState _ "why" followUpCall _ rfl rfl rfl (by decide)

/- ----------------------------------------------------------------
C9: blank topic is a no-op.
---------------------------------------------------------------- -/

/-- C9: calling start with an empty or whitespace-only topic returns
before any side effect: the controller state, the current cancellation
handle and the set of signalled handles are all unchanged, so no
in-flight run is cancelled. -/
theorem c9_blank_topic_noop (topic : String) (hnd : Nat) (o : Oracle)
    (sh : SharedState) (h : isBlank topic = true) :
    startResearchS topic hnd o sh = sh := by
  unfold startResearchS
  rw [if_pos h]

/-- Witness for C9 on a whitespace topic against a live run. -/
theorem c9_witness : startResearchS "  " 7 oracleApproved runOneSuspended = runOneSuspended :=
  c9_blank_topic_noop "  " 7 oracleApproved runOneSuspended (by decide)

/- ----------------------------------------------------------------
C10: grounding-chunk filtering.
---------------------------------------------------------------- -/

/-- C10: a grounding chunk contributes a source exactly when its web
payload is present with truthy (non-empty) uri and title; chunks
missing either field are dropped, so every source returned by the
compile and follow-up service wrappers has a non-empty title and a
non-empty uri. -/
theorem c10_source_filtering (resp : GenResponse) :
    (∀ w : Source, w ∈ extractSources resp.chunks ↔
      (some w ∈ resp.chunks ∧ w.uri ≠ "" ∧ w.title ≠ "")) ∧
    (∀ c, searchAndCompileService resp = Except.ok c →
      ∀ w ∈ c.sources, w.title ≠ "" ∧ w.uri ≠ "") ∧
    (∀ ans srcs, askFollowUpService resp = Except.ok (ans, srcs) →
      ∀ w ∈ srcs, w.title ≠ "" ∧ w.uri ≠ "") := by
  refine ⟨fun w => extractSources_mem resp.chunks w, ?_, ?_⟩
  · intro c hc w hw
    rw [(searchAndCompileService_ok hc).2] at hw
    have := (extractSources_mem resp.chunks w).mp (dedupByUri_subset _ w hw)
    exact ⟨this.2.2, this.2.1⟩
  · intro ans srcs hc w hw
    rw [(askFollowUpService_ok hc).2] at hw
    have := (extractSources_mem resp.chunks w).mp (dedupByUri_subset _ w hw)
    exact ⟨this.2.2, this.2.1⟩

/-- A compile response with one chunk missing its title, one missing
its payload and one well-formed chunk. -/
def mixedResponse : GenResponse :=
  { text := "body",
    chunks := [some { title := "", uri := "u0" }, none, some sampleSource] }

/-- Witness for C10: in the mixed response only the well-formed chunk
survives, and the surviving source has non-empty fields. -/
theorem c10_witness : sampleSource.title ≠ "" ∧ sampleSource.uri ≠ "" :=
  (c10_source_filtering mixedResponse).2.1
    { markdown := "body", sources := [sampleSource] } rfl sampleSource (by decide)

end WebResearchAgent
